import Mathlib

set_option maxRecDepth 100000

/-!
Verification of the Exopedia data ingestion and validation engine
(`ExoplanetDataManager`): the CSV codec, the row-level import orchestrator
and the form-field validator, embedded shallowly in Lean.

Modelling conventions:
* A JavaScript string is a `List Char` (`JStr`).
* A JavaScript number is `JSNum`: `nan`, a signed infinity, or an exact
  rational.  Every finite IEEE double is a dyadic rational and therefore has
  a finite decimal expansion; the model works with exact decimal rationals
  and `JSNum.finDec` singles out the values that have a finite decimal
  rendering (which covers every value an actual JS number can take).
  `Number.prototype.toString` is modelled as the exact plain-decimal
  rendering (JS switches to exponent form for extreme magnitudes; both
  renderings are parsed back to the same value by `parseFloat`, which is
  the only property the program relies on).
* A JavaScript `Date` is an epoch-millisecond timestamp `Option Int`
  (`none` is an Invalid Date).  `Date.prototype.toISOString` /
  `new Date(string)` are modelled as an exact millisecond-precision
  timestamp rendering and its parse; every claim depends only on their
  round-trip at timestamp granularity and on blank-versus-present
  dispatch, never on the civil-calendar digits themselves.
* `crypto.randomUUID()` and `new Date()` (the import time) are modelled as
  explicit parameters `fresh` and `now` of the import.
-/

namespace Exopedia

section
/- Batteries marks the arithmetic of `Rat` irreducible for the elaborator;
concrete evaluation by `decide` needs it unfolded (the kernel itself always
could). -/
attribute [local semireducible] Rat.mul Rat.add Rat.inv Rat.sub

/-- A JavaScript string, as its list of characters. -/
abbrev JStr := List Char

/-- Shorthand turning a Lean string literal into a `JStr`. -/
def js (s : String) : JStr := s.data

/-- JavaScript whitespace (the characters relevant to `trim`/`parseFloat`). -/
def jsWS (c : Char) : Bool :=
  c == ' ' || c == '\t' || c == '\n' || c == '\r' || c == '\x0B' || c == '\x0C'

/-- `String.prototype.trim`. -/
def jsTrim (s : JStr) : JStr :=
  ((s.dropWhile jsWS).reverse.dropWhile jsWS).reverse

/-- `String.prototype.split('\n')`: always returns at least one piece. -/
def splitNl : JStr → List JStr
  | [] => [[]]
  | c :: rest =>
    if c = '\n' then [] :: splitNl rest
    else
      match splitNl rest with
      | [] => [[c]]
      | l :: ls => (c :: l) :: ls

/-- `Array.prototype.join(sep)` for a one-character separator. -/
def joinSep (sep : Char) : List JStr → JStr
  | [] => []
  | [x] => x
  | x :: xs => x ++ sep :: joinSep sep xs

/-- ASCII decimal digit test. -/
def isDigitCh (c : Char) : Bool := '0' ≤ c && c ≤ '9'

/-- Numeric value of a digit character. -/
def digitVal (c : Char) : Nat := c.toNat - 48

/-- Numeric value of a digit string, most significant digit first. -/
def digitsVal (s : JStr) : Nat := s.foldl (fun a c => 10 * a + digitVal c) 0

/-- The digit character for `d < 10`. -/
def digitChar (d : Nat) : Char := Char.ofNat (48 + d)

/-- Fuel-driven digit extraction (structural, so that the kernel can
evaluate it; the fuel `n + 1` of `natToDigits` is always sufficient). -/
def natToDigitsAux : Nat → Nat → JStr
  | 0, _ => []
  | fuel + 1, n =>
    if n < 10 then [digitChar n]
    else natToDigitsAux fuel (n / 10) ++ [digitChar (n % 10)]

/-- Decimal digits of a natural number, most significant first. -/
def natToDigits (n : Nat) : JStr := natToDigitsAux (n + 1) n

/-- Decimal digits of `n`, left-padded with zeros to `width` digits. -/
def natToDigitsPad (width n : Nat) : JStr :=
  List.replicate (width - (natToDigits n).length) '0' ++ natToDigits n

/-- Decimal rendering of an integer. -/
def intToDigits (i : Int) : JStr :=
  if i < 0 then '-' :: natToDigits i.natAbs else natToDigits i.natAbs

/-- Smallest `k` with `d ∣ 10 ^ k`, when one exists below the search bound
(`d` itself, which is sufficient for every `d` whose prime factors are 2
and 5 — i.e. for every denominator of a finite decimal). -/
def decExp (d : Nat) : Option Nat :=
  (List.range (d + 1)).find? (fun k => 10 ^ k % d == 0)

/-- A JavaScript number: NaN, a signed infinity, or an exact rational. -/
inductive JSNum where
  | nan : JSNum
  | inf : Bool → JSNum
  | num : ℚ → JSNum
deriving DecidableEq

/-- The global `isNaN` on an already-converted number. -/
def JSNum.isNaN : JSNum → Bool
  | .nan => true
  | _ => false

/-- The JavaScript `<` comparison (false whenever either side is NaN). -/
def JSNum.lt : JSNum → JSNum → Bool
  | .nan, _ => false
  | _, .nan => false
  | .inf s1, .inf s2 => s1 && !s2
  | .inf s1, .num _ => s1
  | .num _, .inf s2 => !s2
  | .num a, .num b => decide (a < b)

/-- Plain-decimal rendering of a rational with a finite decimal expansion
(the `none` branch is unreachable for any value a JS number can hold). -/
def ratToString (q : ℚ) : JStr :=
  match decExp q.den with
  | none => js "NaN"
  | some k =>
    let n := q.num.natAbs * 10 ^ k / q.den
    let sgn : JStr := if q.num < 0 then ['-'] else []
    if k = 0 then sgn ++ natToDigits n
    else sgn ++ natToDigits (n / 10 ^ k) ++ '.' :: natToDigitsPad k (n % 10 ^ k)

/-- `Number.prototype.toString` (see the module comment on exponent form). -/
def JSNum.toString : JSNum → JStr
  | .nan => js "NaN"
  | .inf b => if b then js "-Infinity" else js "Infinity"
  | .num q => ratToString q

/-- Consume an optional leading sign, returning (isNegative, rest). -/
def parseSign (s : JStr) : Bool × JStr :=
  match s with
  | [] => (false, [])
  | c :: t => if c = '-' then (true, t) else if c = '+' then (false, t) else (false, c :: t)

/-- Value of the optional exponent suffix accepted by `parseFloat`. -/
def parseExp (s : JStr) : Int :=
  match s with
  | [] => 0
  | c :: rest =>
    if c = 'e' ∨ c = 'E' then
      let p := parseSign rest
      let ds := p.2.takeWhile isDigitCh
      if ds.isEmpty then 0
      else if p.1 then -(digitsVal ds : Int) else (digitsVal ds : Int)
    else 0

/-- The characters of the literal `Infinity` accepted by `parseFloat`. -/
def infChars : JStr := js "Infinity"

/-- Does `pat` occur at the start of `s`? -/
def leadsWith : JStr → JStr → Bool
  | [], _ => true
  | _ :: _, [] => false
  | a :: as, b :: bs => a == b && leadsWith as bs

/-- Magnitude part of `parseFloat`, after whitespace and sign handling. -/
def parseFloatMag (neg : Bool) (s : JStr) : JSNum :=
  if leadsWith infChars s then .inf neg
  else
    let ip := s.takeWhile isDigitCh
    let r1 := s.dropWhile isDigitCh
    let fp := match r1 with
      | '.' :: t => t.takeWhile isDigitCh
      | _ => []
    let r2 := match r1 with
      | '.' :: t => t.dropWhile isDigitCh
      | _ => r1
    if ip.isEmpty && fp.isEmpty then .nan
    else
      let mant : ℚ := (digitsVal ip : ℚ) + (digitsVal fp : ℚ) / (10 : ℚ) ^ fp.length
      let v : ℚ := mant * (10 : ℚ) ^ parseExp r2
      .num (if neg then -v else v)

/-- The global `parseFloat`. -/
def parseFloat (s : JStr) : JSNum :=
  let p := parseSign (s.dropWhile jsWS)
  parseFloatMag p.1 p.2

/-- `Date.prototype.toISOString` on a valid date, modelled as the exact
millisecond timestamp rendering (the real method throws on an Invalid
Date; the `none` branch is unreachable wherever the program calls it on a
validated record). -/
def dateToISO : Option Int → JStr
  | some t => intToDigits t ++ ['Z']
  | none => js "Invalid"

/-- `new Date(string)`, as the parse of `dateToISO`'s output format;
anything else is an Invalid Date (`none`). -/
def jsDateParse (s : JStr) : Option Int :=
  let p : Bool × JStr :=
    match s with
    | [] => (false, [])
    | c :: t => if c = '-' then (true, t) else (false, c :: t)
  let ds := p.2.takeWhile isDigitCh
  let rest := p.2.dropWhile isDigitCh
  if ds ≠ [] ∧ rest = ['Z'] then
    some (if p.1 then -(digitsVal ds : Int) else (digitsVal ds : Int))
  else none

/-- `StellarProperties` from `types/exoplanet.ts`. -/
structure StellarProperties where
  radius : JSNum
  temperature : JSNum
  magnitude : JSNum
deriving DecidableEq

/-- `ExoplanetData` from `types/exoplanet.ts`. -/
structure ExoplanetData where
  id : JStr
  name : JStr
  orbitalPeriod : JSNum
  transitDepth : JSNum
  transitDuration : JSNum
  signalToNoiseRatio : JSNum
  stellarProperties : StellarProperties
  dateAdded : Option Int
  notes : Option JStr
  result : Option JStr
deriving DecidableEq

/-- `ExoplanetFormData` from `types/exoplanet.ts`. -/
structure ExoplanetFormData where
  name : JStr
  orbitalPeriod : JStr
  transitDepth : JStr
  transitDuration : JStr
  signalToNoiseRatio : JStr
  stellarRadius : JStr
  stellarTemperature : JStr
  stellarMagnitude : JStr
  notes : Option JStr
deriving DecidableEq

/-- The `numericFields` table of `validateFormData`: raw value, display
name, optional minimum. -/
def numericFieldSpecs (fd : ExoplanetFormData) : List (JStr × JStr × Option ℚ) :=
  [ (fd.orbitalPeriod, js "Orbital Period", some 0),
    (fd.transitDepth, js "Transit Depth", some 0),
    (fd.transitDuration, js "Transit Duration", some 0),
    (fd.signalToNoiseRatio, js "Signal-to-Noise Ratio", some 0),
    (fd.stellarRadius, js "Stellar Radius", some 0),
    (fd.stellarTemperature, js "Stellar Temperature", some 0),
    (fd.stellarMagnitude, js "Stellar Magnitude", none) ]

/-- One iteration of the `numericFields.forEach` body of `validateFormData`. -/
def checkNumericField (value fieldName : JStr) (minB : Option ℚ) : List JStr :=
  let v := parseFloat value
  if v.isNaN then [fieldName ++ js " must be a valid number"]
  else
    match minB with
    | some m =>
      if v.lt (.num m) then [fieldName ++ js " must be greater than " ++ ratToString m]
      else []
    | none => []

/-- `ExoplanetDataManager.validateFormData`. -/
def validateFormData (fd : ExoplanetFormData) : List JStr :=
  (if (jsTrim fd.name).isEmpty then [js "Name is required"] else []) ++
  ((numericFieldSpecs fd).map (fun t => checkNumericField t.1 t.2.1 t.2.2)).flatten

/-- `cell.replace(/"/g, '""')`. -/
def escQuote : JStr → JStr
  | [] => []
  | c :: r => if c = '"' then '"' :: '"' :: escQuote r else c :: escQuote r

/-- One exported CSV cell: the quoted, quote-doubled content. -/
def encodeCell (s : JStr) : JStr := '"' :: (escQuote s ++ ['"'])

/-- One exported CSV row: the encoded cells joined by commas. -/
def encodeRow (cells : List JStr) : JStr := joinSep ',' (cells.map encodeCell)

/-- The fixed header cells of `exportToCSV`. -/
def csvHeaders (includeResult : Bool) : List JStr :=
  [js "Name", js "Orbital Period (days)", js "Transit Depth (ppm)",
   js "Transit Duration (hours)", js "Signal-to-Noise Ratio",
   js "Stellar Radius (Solar Radii)", js "Stellar Temperature (K)",
   js "Stellar Magnitude", js "Date Added", js "Notes"] ++
  (if includeResult then [js "Result"] else [])

/-- The cell row `exportToCSV` builds for one record. -/
def recordRow (item : ExoplanetData) (includeResult : Bool) : List JStr :=
  [item.name, item.orbitalPeriod.toString, item.transitDepth.toString,
   item.transitDuration.toString, item.signalToNoiseRatio.toString,
   item.stellarProperties.radius.toString, item.stellarProperties.temperature.toString,
   item.stellarProperties.magnitude.toString, dateToISO item.dateAdded,
   item.notes.getD []] ++
  (if includeResult then [item.result.getD []] else [])

/-- `ExoplanetDataManager.exportToCSV`. -/
def exportToCSV (data : List ExoplanetData) (includeResult : Bool) : JStr :=
  joinSep '\n'
    ((csvHeaders includeResult :: data.map (fun item => recordRow item includeResult)).map encodeRow)

/-- The character loop of `ExoplanetDataManager.parseCSVLine`:
`inQ` is `inQuotes`, `current` the field being accumulated. -/
def parseCSVLineAux : JStr → Bool → JStr → List JStr
  | [], _, current => [current]
  | '"' :: '"' :: rest2, true, current => parseCSVLineAux rest2 true (current ++ ['"'])
  | '"' :: rest, true, current => parseCSVLineAux rest false current
  | '"' :: rest, false, current => parseCSVLineAux rest true current
  | ',' :: rest, false, current => current :: parseCSVLineAux rest false []
  | c :: rest, inQ, current => parseCSVLineAux rest inQ (current ++ [c])

/-- `ExoplanetDataManager.parseCSVLine`. -/
def parseCSVLine (line : JStr) : List JStr := parseCSVLineAux line false []

/-- One entry of `ImportResult.failed` (`data` is always the token list in
the reachable branches; the catch-all branch of the source cannot fire,
since every operation in the loop body is total). -/
structure FailedEntry where
  row : Nat
  error : JStr
  data : List JStr
deriving DecidableEq

/-- `ImportResult` from `types/exoplanet.ts`. -/
structure ImportResult where
  successful : List ExoplanetData
  failed : List FailedEntry
deriving DecidableEq

deriving instance DecidableEq for Except

/-- Project out a failure. -/
def errOpt : Except FailedEntry ExoplanetData → Option FailedEntry
  | .error e => some e
  | .ok _ => none

/-- Project out a success. -/
def okOpt : Except FailedEntry ExoplanetData → Option ExoplanetData
  | .ok r => some r
  | .error _ => none

/-- The body of the import loop for the line at index `i` of the split
file (`i ≥ 1`, since index 0 is the skipped header). -/
def importLine (now : Int) (fresh : Nat → JStr) (i : Nat) (line : JStr) :
    Except FailedEntry ExoplanetData :=
  let cells := parseCSVLine line
  if cells.length < 8 then
    .error ⟨i + 1, js "Insufficient columns", cells⟩
  else
    let exo : ExoplanetData :=
      { id := fresh i
        name := cells.getD 0 []
        orbitalPeriod := parseFloat (cells.getD 1 [])
        transitDepth := parseFloat (cells.getD 2 [])
        transitDuration := parseFloat (cells.getD 3 [])
        signalToNoiseRatio := parseFloat (cells.getD 4 [])
        stellarProperties :=
          { radius := parseFloat (cells.getD 5 [])
            temperature := parseFloat (cells.getD 6 [])
            magnitude := parseFloat (cells.getD 7 []) }
        dateAdded := if (cells.getD 8 []).isEmpty then some now else jsDateParse (cells.getD 8 [])
        notes := if (cells.getD 9 []).isEmpty then none else some (cells.getD 9 [])
        result := none }
    if (exo.orbitalPeriod.isNaN || exo.transitDepth.isNaN || exo.transitDuration.isNaN ||
        exo.signalToNoiseRatio.isNaN || exo.stellarProperties.radius.isNaN ||
        exo.stellarProperties.temperature.isNaN || exo.stellarProperties.magnitude.isNaN) ||
        (jsTrim exo.name).isEmpty then
      .error ⟨i + 1, js "Invalid data format", cells⟩
    else
      .ok exo

/-- The import loop over the data lines, numbering them from index `i`. -/
def importLines (now : Int) (fresh : Nat → JStr) : Nat → List JStr → List (Except FailedEntry ExoplanetData)
  | _, [] => []
  | i, l :: ls => importLine now fresh i l :: importLines now fresh (i + 1) ls

/-- `ExoplanetDataManager.importFromCSV`. -/
def importFromCSV (now : Int) (fresh : Nat → JStr) (csvContent : JStr) : ImportResult :=
  let lines := splitNl (jsTrim csvContent)
  let results := importLines now fresh 1 (lines.drop 1)
  { successful := results.filterMap okOpt
    failed := results.filterMap errOpt }

/-- A finite JS number with a finite decimal rendering (every value a real
JS number can hold is either NaN, an infinity, or such a value). -/
def JSNum.finDec : JSNum → Bool
  | .num q => (decExp q.den).isSome
  | _ => false

/-- A finite, non-negative JS number. -/
def JSNum.nonneg : JSNum → Bool
  | .num q => decide (0 ≤ q)
  | _ => false

/-- No newline in the string. -/
def noNl (s : JStr) : Bool := !(s.contains '\n')

/-- The Observation Record invariant of spec §3: non-empty trimmed name,
the six non-magnitude numeric fields finite and non-negative, the
magnitude finite, and a valid timestamp. -/
def ValidRecord (r : ExoplanetData) : Bool :=
  !(jsTrim r.name).isEmpty &&
  r.orbitalPeriod.finDec && r.orbitalPeriod.nonneg &&
  r.transitDepth.finDec && r.transitDepth.nonneg &&
  r.transitDuration.finDec && r.transitDuration.nonneg &&
  r.signalToNoiseRatio.finDec && r.signalToNoiseRatio.nonneg &&
  r.stellarProperties.radius.finDec && r.stellarProperties.radius.nonneg &&
  r.stellarProperties.temperature.finDec && r.stellarProperties.temperature.nonneg &&
  r.stellarProperties.magnitude.finDec &&
  r.dateAdded.isSome

/-- The extra conditions the codec needs for a lossless round trip: no
newline inside `name` or `notes`, `notes` non-empty when present, and no
`result` annotation (export with the default flag drops it and import
never reads it). -/
def csvSafe (r : ExoplanetData) : Bool :=
  noNl r.name &&
  (match r.notes with
   | some s => !s.isEmpty && noNl s
   | none => true) &&
  r.result.isNone

/-- Equality of records in every field except the freshly generated `id`. -/
def eqExceptId (a b : ExoplanetData) : Prop :=
  { a with id := b.id } = b

/-- A placeholder record used to destructure concrete import results. -/
def defaultExo : ExoplanetData :=
  { id := [], name := [], orbitalPeriod := .nan, transitDepth := .nan,
    transitDuration := .nan, signalToNoiseRatio := .nan,
    stellarProperties := { radius := .nan, temperature := .nan, magnitude := .nan },
    dateAdded := none, notes := none, result := none }

/-! ### Concrete fixtures used by witnesses and counterexamples -/

/-- Stub id generator for concrete runs. -/
def f0 : Nat → JStr := fun _ => []

/-- A placeholder failure entry used to destructure concrete results. -/
def defaultFail : FailedEntry := { row := 0, error := [], data := [] }

/-- Bool form of `validateFormData`'s no-error condition for one of the six
minimum-checked numeric fields. -/
def fieldOkB (s : JStr) : Bool := !(parseFloat s).isNaN && !((parseFloat s).lt (.num 0))

/-- A well-formed observation record (magnitude negative, notes with a comma
and an escaped quote). -/
def exRecord : ExoplanetData :=
  { id := js "old-id", name := js "Kepler-22b", orbitalPeriod := .num 290,
    transitDepth := .num (mkRat 3 2), transitDuration := .num 7,
    signalToNoiseRatio := .num 12,
    stellarProperties := ⟨.num 1, .num 5518, .num (-(mkRat 3 2))⟩,
    dateAdded := some 1699999999999, notes := some (js "good, \"obs\""), result := none }

/-- The same record with a newline inside `name`: still a valid record per
the spec invariants, but the codec cannot round-trip it. -/
def recNl : ExoplanetData := { exRecord with name := js "a\nb", notes := none }

/-- A record whose name holds both a comma and a double quote. -/
def recQuote : ExoplanetData := { exRecord with name := js "Kepler, \"442b\"", notes := none }

/-- Import file whose single data row has a negative orbital period. -/
def csvNeg : JStr := js "h\n\"x\",\"-5\",\"1\",\"1\",\"1\",\"1\",\"1\",\"1\""

/-- Import file whose single data row is malformed. -/
def csvBad : JStr := js "h\nx"

/-- Import file with three valid rows and one row with a non-numeric
transit depth. -/
def csvPartial : JStr :=
  js "h\n\"a\",\"1\",\"1\",\"1\",\"1\",\"1\",\"1\",\"1\"\n\"b\",\"2\",\"2\",\"2\",\"2\",\"2\",\"2\",\"2\"\n\"c\",\"3\",\"abc\",\"3\",\"3\",\"3\",\"3\",\"3\"\n\"d\",\"4\",\"4\",\"4\",\"4\",\"4\",\"4\",\"4\""

/-- Import file whose single data row has only five comma-separated tokens. -/
def csvShort : JStr := js "h\n1,2,3,4,5"

/-- An import file holding only the header line. -/
def headerOnly : JStr :=
  js "Name,Orbital Period (days),Transit Depth (ppm),Transit Duration (hours),Signal-to-Noise Ratio,Stellar Radius (Solar Radii),Stellar Temperature (K),Stellar Magnitude,Date Added,Notes"

/-- A data row with exactly 8 tokens (no Date Added column). -/
def row8 : JStr := js "\"n\",\"1\",\"1\",\"1\",\"1\",\"1\",\"1\",\"1\""

/-- A data row with 9 tokens whose Date Added token is non-empty. -/
def row9 : JStr := js "\"n\",\"1\",\"1\",\"1\",\"1\",\"1\",\"1\",\"1\",\"123Z\""

/-- The record imported from `row8`. -/
def w9rec8 : ExoplanetData := (importLine 42 f0 1 row8).toOption.getD defaultExo

/-- The record imported from `row9`. -/
def w9rec9 : ExoplanetData := (importLine 42 f0 1 row9).toOption.getD defaultExo

/-- The record imported from `csvNeg`. -/
def c2rec : ExoplanetData := (importFromCSV 0 f0 csvNeg).successful.getD 0 defaultExo

/-- The failure entry produced for `csvBad`. -/
def c3ent : FailedEntry := (importFromCSV 0 f0 csvBad).failed.getD 0 defaultFail

/-- Form input with a blank name and a negative orbital period. -/
def fdBad : ExoplanetFormData :=
  { name := js "   ", orbitalPeriod := js "-5", transitDepth := js "1",
    transitDuration := js "1", signalToNoiseRatio := js "1", stellarRadius := js "1",
    stellarTemperature := js "1", stellarMagnitude := js "1", notes := none }

/-- Form input that is fully valid, with a negative stellar magnitude. -/
def fdGood : ExoplanetFormData :=
  { name := js "HD 209458 b", orbitalPeriod := js "3.5", transitDepth := js "1.5",
    transitDuration := js "3", signalToNoiseRatio := js "20", stellarRadius := js "1.2",
    stellarTemperature := js "6000", stellarMagnitude := js "-1.5", notes := none }

/-- The valid form input with a non-parseable stellar magnitude. -/
def fdBadMag : ExoplanetFormData := { fdGood with stellarMagnitude := js "bright" }

/-! ### Digit rendering and parsing -/

theorem foldl_digits (s : JStr) (acc : Nat) :
    s.foldl (fun a c => 10 * a + digitVal c) acc = acc * 10 ^ s.length + digitsVal s := by
  induction s generalizing acc with
  | nil => simp [digitsVal]
  | cons c t ih =>
    simp only [List.foldl_cons, List.length_cons, digitsVal] at *
    rw [ih, ih (10 * 0 + digitVal c)]
    ring

theorem digitsVal_append (a b : JStr) :
    digitsVal (a ++ b) = digitsVal a * 10 ^ b.length + digitsVal b := by
  unfold digitsVal
  rw [List.foldl_append, foldl_digits]
  rfl

theorem digitVal_digitChar (d : Nat) (h : d < 10) : digitVal (digitChar d) = d := by
  interval_cases d <;> decide

theorem isDigitCh_digitChar (d : Nat) (h : d < 10) : isDigitCh (digitChar d) = true := by
  interval_cases d <;> decide

theorem natToDigitsAux_spec : ∀ fuel n, n < fuel →
    natToDigitsAux fuel n ≠ [] ∧ (∀ c ∈ natToDigitsAux fuel n, isDigitCh c = true) ∧
      digitsVal (natToDigitsAux fuel n) = n := by
  intro fuel
  induction fuel with
  | zero => omega
  | succ fuel ih =>
    intro n hn
    rw [natToDigitsAux]
    by_cases h10 : n < 10
    · refine ⟨by simp [h10], ?_, ?_⟩
      · simp only [if_pos h10, List.mem_singleton]
        rintro c rfl
        exact isDigitCh_digitChar n h10
      · simp [if_pos h10, digitsVal, digitVal_digitChar n h10]
    · have hdiv : n / 10 < n := Nat.div_lt_self (by omega) (by omega)
      obtain ⟨hne, hdig, hval⟩ := ih (n / 10) (by omega)
      rw [if_neg h10]
      refine ⟨by simp, ?_, ?_⟩
      · intro c hc
        rcases List.mem_append.1 hc with h | h
        · exact hdig c h
        · simp only [List.mem_singleton] at h
          subst h
          exact isDigitCh_digitChar _ (Nat.mod_lt _ (by omega))
      · rw [digitsVal_append, hval]
        simp [digitsVal, digitVal_digitChar _ (Nat.mod_lt n (show 0 < 10 by omega))]
        omega

theorem natToDigits_ne_nil (n : Nat) : natToDigits n ≠ [] :=
  (natToDigitsAux_spec (n + 1) n (by omega)).1

theorem natToDigits_digits (n : Nat) : ∀ c ∈ natToDigits n, isDigitCh c = true :=
  (natToDigitsAux_spec (n + 1) n (by omega)).2.1

theorem digitsVal_natToDigits (n : Nat) : digitsVal (natToDigits n) = n :=
  (natToDigitsAux_spec (n + 1) n (by omega)).2.2

theorem natToDigitsAux_length : ∀ fuel n k, n < fuel → n < 10 ^ k → 0 < k →
    (natToDigitsAux fuel n).length ≤ k := by
  intro fuel
  induction fuel with
  | zero => omega
  | succ fuel ih =>
    intro n k hn hk hk0
    rw [natToDigitsAux]
    by_cases h10 : n < 10
    · rw [if_pos h10]
      simp only [List.length_singleton]
      omega
    · have hdiv : n / 10 < n := Nat.div_lt_self (by omega) (by omega)
      obtain ⟨k', rfl⟩ : ∃ k', k = k' + 1 := ⟨k - 1, by omega⟩
      have hk' : 0 < k' := by
        by_contra h
        have : k' = 0 := by omega
        subst this
        simp at hk
        omega
      have : n / 10 < 10 ^ k' := by
        rw [Nat.div_lt_iff_lt_mul (by omega)]
        calc n < 10 ^ (k' + 1) := hk
        _ = 10 ^ k' * 10 := by ring
      have := ih (n / 10) k' (by omega) this hk'
      rw [if_neg h10]
      simp only [List.length_append, List.length_singleton]
      omega

theorem digitsVal_replicate_zero (j : Nat) : digitsVal (List.replicate j '0') = 0 := by
  induction j with
  | zero => rfl
  | succ j ih =>
    rw [List.replicate_succ]
    show digitsVal ('0' :: List.replicate j '0') = 0
    unfold digitsVal at *
    simp only [List.foldl_cons]
    have h0 : (10 * 0 + digitVal '0') = 0 := by decide
    rw [h0]
    exact ih

theorem natToDigitsPad_digits (k m : Nat) :
    ∀ c ∈ natToDigitsPad k m, isDigitCh c = true := by
  intro c hc
  rcases List.mem_append.1 hc with h | h
  · rw [List.eq_of_mem_replicate h]; decide
  · exact natToDigits_digits m c h

theorem digitsVal_natToDigitsPad (k m : Nat) : digitsVal (natToDigitsPad k m) = m := by
  unfold natToDigitsPad
  rw [digitsVal_append, digitsVal_replicate_zero, digitsVal_natToDigits]
  simp

theorem natToDigitsPad_length (k m : Nat) (h : m < 10 ^ k) (hk : 0 < k) :
    (natToDigitsPad k m).length = k := by
  have hle : (natToDigits m).length ≤ k := natToDigitsAux_length (m + 1) m k (by omega) h hk
  unfold natToDigitsPad
  simp only [List.length_append, List.length_replicate]
  omega

/-! ### Character classes and scanning -/

theorem digit_ne (c x : Char) (h : isDigitCh c = true) (hx : isDigitCh x = false) : c ≠ x := by
  intro e
  rw [e, hx] at h
  cases h

theorem jsWS_digit (c : Char) (h : isDigitCh c = true) : jsWS c = false := by
  have h1 := digit_ne c ' ' h (by decide)
  have h2 := digit_ne c '\t' h (by decide)
  have h3 := digit_ne c '\n' h (by decide)
  have h4 := digit_ne c '\r' h (by decide)
  have h5 := digit_ne c '\x0B' h (by decide)
  have h6 := digit_ne c '\x0C' h (by decide)
  simp [jsWS, h1, h2, h3, h4, h5, h6]

theorem takeWhile_all (p : Char → Bool) (a : JStr) (h : ∀ c ∈ a, p c = true) :
    a.takeWhile p = a := by
  induction a with
  | nil => rfl
  | cons c t ih =>
    rw [List.takeWhile_cons, if_pos (by simp [h c (by simp)])]
    rw [ih (fun x hx => h x (by simp [hx]))]

theorem dropWhile_all (p : Char → Bool) (a : JStr) (h : ∀ c ∈ a, p c = true) :
    a.dropWhile p = [] := by
  induction a with
  | nil => rfl
  | cons c t ih =>
    rw [List.dropWhile_cons_of_pos (by simp [h c (by simp)])]
    exact ih (fun x hx => h x (by simp [hx]))

theorem takeWhile_append_all (p : Char → Bool) (a b : JStr) (h : ∀ c ∈ a, p c = true) :
    (a ++ b).takeWhile p = a ++ b.takeWhile p := by
  induction a with
  | nil => simp
  | cons c t ih =>
    rw [List.cons_append, List.takeWhile_cons, if_pos (by simp [h c (by simp)])]
    rw [ih (fun x hx => h x (by simp [hx]))]
    rfl

theorem dropWhile_append_all (p : Char → Bool) (a b : JStr) (h : ∀ c ∈ a, p c = true) :
    (a ++ b).dropWhile p = b.dropWhile p := by
  induction a with
  | nil => simp
  | cons c t ih =>
    rw [List.cons_append, List.dropWhile_cons_of_pos (by simp [h c (by simp)])]
    exact ih (fun x hx => h x (by simp [hx]))

theorem parseSign_not_sign (c : Char) (t : JStr) (h1 : c ≠ '-') (h2 : c ≠ '+') :
    parseSign (c :: t) = (false, c :: t) := by
  simp [parseSign, h1, h2]

theorem parseSign_negSign (t : JStr) : parseSign ('-' :: t) = (true, t) := by
  simp [parseSign]

theorem leadsWith_infChars_digit (c : Char) (s : JStr) (h : isDigitCh c = true) :
    leadsWith infChars (c :: s) = false := by
  have hne : ('I' == c) = false := by
    rw [beq_eq_false_iff_ne]
    intro e
    rw [← e] at h
    exact absurd h (by decide)
  have hi : infChars = 'I' :: js "nfinity" := rfl
  rw [hi]
  show ('I' == c && leadsWith (js "nfinity") s) = false
  rw [hne]
  rfl

/-! ### Evaluating parseFloat on rendered numbers -/

theorem parseFloatMag_int (neg : Bool) (ds : JStr) (h1 : ds ≠ [])
    (h2 : ∀ c ∈ ds, isDigitCh c = true) :
    parseFloatMag neg ds =
      .num (if neg then -(digitsVal ds : ℚ) else (digitsVal ds : ℚ)) := by
  obtain ⟨c, t, rfl⟩ := List.exists_cons_of_ne_nil h1
  have hlead := leadsWith_infChars_digit c t (h2 c (by simp))
  unfold parseFloatMag
  rw [hlead]
  simp only [Bool.false_eq_true, if_false, takeWhile_all _ _ h2, dropWhile_all _ _ h2]
  have hne : (c :: t).isEmpty = false := rfl
  simp [hne, parseExp, digitsVal]

theorem parseFloatMag_dot (neg : Bool) (ds fs : JStr) (h1 : ds ≠ [])
    (h2 : ∀ c ∈ ds, isDigitCh c = true) (h3 : ∀ c ∈ fs, isDigitCh c = true) :
    parseFloatMag neg (ds ++ '.' :: fs) =
      .num (if neg then -((digitsVal ds : ℚ) + (digitsVal fs : ℚ) / (10 : ℚ) ^ fs.length)
            else (digitsVal ds : ℚ) + (digitsVal fs : ℚ) / (10 : ℚ) ^ fs.length) := by
  obtain ⟨c, t, rfl⟩ := List.exists_cons_of_ne_nil h1
  have hlead : leadsWith infChars ((c :: t) ++ '.' :: fs) = false := by
    rw [List.cons_append]
    exact leadsWith_infChars_digit c _ (h2 c (by simp))
  unfold parseFloatMag
  rw [hlead]
  have htake : ((c :: t) ++ '.' :: fs).takeWhile isDigitCh = c :: t := by
    rw [takeWhile_append_all _ _ _ h2, List.takeWhile_cons, if_neg (by decide)]
    simp
  have hdrop : ((c :: t) ++ '.' :: fs).dropWhile isDigitCh = '.' :: fs := by
    rw [dropWhile_append_all _ _ _ h2, List.dropWhile_cons_of_neg (by decide)]
  simp only [Bool.false_eq_true, if_false, htake, hdrop, takeWhile_all _ _ h3,
    dropWhile_all _ _ h3]
  have hne : (c :: t).isEmpty = false := rfl
  simp [hne, parseExp]

theorem parseFloat_posHead (c : Char) (t : JStr) (h : isDigitCh c = true) :
    parseFloat (c :: t) = parseFloatMag false (c :: t) := by
  unfold parseFloat
  rw [List.dropWhile_cons_of_neg (by simp [jsWS_digit c h])]
  rw [parseSign_not_sign c t (digit_ne c '-' h (by decide)) (digit_ne c '+' h (by decide))]

theorem parseFloat_negSign (s : JStr) : parseFloat ('-' :: s) = parseFloatMag true s := by
  unfold parseFloat
  rw [List.dropWhile_cons_of_neg (by decide)]
  rw [parseSign_negSign]

theorem decExp_dvd (d k : Nat) (h : decExp d = some k) : d ∣ 10 ^ k := by
  have hmem := List.find?_some h
  simp only [beq_iff_eq] at hmem
  exact Nat.dvd_of_mod_eq_zero hmem

theorem ite_true_bool {α : Type} (a b : α) : (if (true : Bool) = true then a else b) = a :=
  if_pos rfl

theorem ite_false_bool {α : Type} (a b : α) : (if (false : Bool) = true then a else b) = b :=
  if_neg (by simp)

theorem ratToString_eq (q : ℚ) (k : Nat) (hk : decExp q.den = some k) :
    ratToString q =
      (if q.num < 0 then ['-'] else []) ++
        (if k = 0 then natToDigits (q.num.natAbs * 10 ^ k / q.den)
         else natToDigits (q.num.natAbs * 10 ^ k / q.den / 10 ^ k) ++
           '.' :: natToDigitsPad k (q.num.natAbs * 10 ^ k / q.den % 10 ^ k)) := by
  unfold ratToString
  rw [hk]
  dsimp only
  by_cases hk0 : k = 0
  · rw [if_pos hk0, if_pos hk0]
  · rw [if_neg hk0, if_neg hk0]
    rw [List.append_assoc]

theorem rat_eq_of_abs (q x : ℚ) (hx : x = (q.num.natAbs : ℚ) / q.den) :
    (if q.num < 0 then -x else x) = q := by
  by_cases hneg : q.num < 0
  · have habs : (q.num.natAbs : ℚ) = -(q.num : ℚ) := by
      have h : (q.num.natAbs : ℤ) = -q.num := by omega
      calc (q.num.natAbs : ℚ) = ((q.num.natAbs : ℤ) : ℚ) := (Int.cast_natCast _).symm
      _ = ((-q.num : ℤ) : ℚ) := by rw [h]
      _ = -(q.num : ℚ) := by push_cast; ring
    rw [if_pos hneg, hx, habs, neg_div, neg_neg, Rat.num_div_den]
  · have habs : (q.num.natAbs : ℚ) = (q.num : ℚ) := by
      have h : (q.num.natAbs : ℤ) = q.num := by omega
      calc (q.num.natAbs : ℚ) = ((q.num.natAbs : ℤ) : ℚ) := (Int.cast_natCast _).symm
      _ = ((q.num : ℤ) : ℚ) := by rw [h]
      _ = (q.num : ℚ) := rfl
    rw [if_neg hneg, hx, habs, Rat.num_div_den]

theorem parseFloat_ratToString (q : ℚ) (k : Nat) (hk : decExp q.den = some k) :
    parseFloat (ratToString q) = .num q := by
  have hdvd : q.den ∣ 10 ^ k := decExp_dvd _ _ hk
  have hdnz : q.den ≠ 0 := q.den_nz
  have hden0 : (q.den : ℚ) ≠ 0 := Nat.cast_ne_zero.mpr hdnz
  have hq10 : ((10 : ℚ) ^ k) ≠ 0 := by positivity
  set n := q.num.natAbs * 10 ^ k / q.den with hn
  have hmul : n * q.den = q.num.natAbs * 10 ^ k :=
    Nat.div_mul_cancel (Dvd.dvd.mul_left hdvd _)
  have hvalQ : (n : ℚ) / 10 ^ k = (q.num.natAbs : ℚ) / q.den := by
    rw [div_eq_div_iff hq10 hden0]
    have := congrArg (fun m : Nat => (m : ℚ)) hmul
    push_cast at this ⊢
    linarith
  rw [ratToString_eq q k hk]
  by_cases hk0 : k = 0
  · subst hk0
    have hnval : (n : ℚ) = (q.num.natAbs : ℚ) / q.den := by simpa using hvalQ
    have heq := rat_eq_of_abs q n hnval
    rw [if_pos rfl]
    by_cases hneg : q.num < 0
    · rw [if_pos hneg, List.singleton_append, parseFloat_negSign,
        parseFloatMag_int true _ (natToDigits_ne_nil n) (natToDigits_digits n),
        digitsVal_natToDigits, ite_true_bool]
      rw [if_pos hneg] at heq
      rw [heq]
    · rw [if_neg hneg, List.nil_append]
      obtain ⟨c, t, he⟩ := List.exists_cons_of_ne_nil (natToDigits_ne_nil n)
      have hdigc : isDigitCh c = true := natToDigits_digits n c (by rw [he]; simp)
      rw [he, parseFloat_posHead c t hdigc, ← he,
        parseFloatMag_int false _ (natToDigits_ne_nil n) (natToDigits_digits n),
        digitsVal_natToDigits, ite_false_bool]
      rw [if_neg hneg] at heq
      rw [heq]
  · have hkpos : 0 < k := Nat.pos_of_ne_zero hk0
    have hmlt : n % 10 ^ k < 10 ^ k := Nat.mod_lt _ (by positivity)
    have hflen : (natToDigitsPad k (n % 10 ^ k)).length = k :=
      natToDigitsPad_length k _ hmlt hkpos
    have hx : (digitsVal (natToDigits (n / 10 ^ k)) : ℚ) +
        (digitsVal (natToDigitsPad k (n % 10 ^ k)) : ℚ) /
          (10 : ℚ) ^ (natToDigitsPad k (n % 10 ^ k)).length = (n : ℚ) / 10 ^ k := by
      rw [digitsVal_natToDigits, digitsVal_natToDigitsPad, hflen, eq_div_iff hq10,
        add_mul, div_mul_cancel₀ _ hq10]
      have hdm := congrArg (fun m : Nat => (m : ℚ)) (Nat.div_add_mod n (10 ^ k))
      push_cast at hdm ⊢
      linarith
    have hdsne := natToDigits_ne_nil (n / 10 ^ k)
    have hdsdig := natToDigits_digits (n / 10 ^ k)
    have hfsdig := natToDigitsPad_digits k (n % 10 ^ k)
    have heq := rat_eq_of_abs q _ (hx.trans hvalQ)
    rw [if_neg hk0]
    by_cases hneg : q.num < 0
    · rw [if_pos hneg, List.singleton_append, parseFloat_negSign,
        parseFloatMag_dot true _ _ hdsne hdsdig hfsdig, ite_true_bool]
      rw [if_pos hneg] at heq
      rw [heq]
    · rw [if_neg hneg, List.nil_append]
      obtain ⟨c, t, he⟩ := List.exists_cons_of_ne_nil hdsne
      have hdigc : isDigitCh c = true := hdsdig c (by rw [he]; simp)
      rw [he, List.cons_append, parseFloat_posHead c _ hdigc, ← List.cons_append, ← he,
        parseFloatMag_dot false _ _ hdsne hdsdig hfsdig, ite_false_bool]
      rw [if_neg hneg] at heq
      rw [heq]

theorem parseFloat_toString (m : JSNum) (h : m.finDec = true) :
    parseFloat (JSNum.toString m) = m := by
  cases m with
  | nan => simp [JSNum.finDec] at h
  | inf b => simp [JSNum.finDec] at h
  | num q =>
    have h' : (decExp q.den).isSome = true := h
    obtain ⟨k, hk⟩ := Option.isSome_iff_exists.mp h'
    exact parseFloat_ratToString q k hk

theorem jsDateParse_dateToISO (t : Int) : jsDateParse (dateToISO (some t)) = some t := by
  have hdig := natToDigits_digits t.natAbs
  have hne := natToDigits_ne_nil t.natAbs
  have htake : (natToDigits t.natAbs ++ ['Z']).takeWhile isDigitCh = natToDigits t.natAbs := by
    rw [takeWhile_append_all _ _ _ hdig, List.takeWhile_cons, if_neg (by decide)]
    simp
  have hdrop : (natToDigits t.natAbs ++ ['Z']).dropWhile isDigitCh = ['Z'] := by
    rw [dropWhile_append_all _ _ _ hdig, List.dropWhile_cons_of_neg (by decide)]
  unfold dateToISO intToDigits
  dsimp only
  by_cases hneg : t < 0
  · rw [if_pos hneg, List.cons_append]
    unfold jsDateParse
    dsimp only
    rw [if_pos rfl]
    dsimp only
    rw [htake, hdrop]
    rw [if_pos ⟨hne, rfl⟩, ite_true_bool, digitsVal_natToDigits]
    congr 1
    omega
  · rw [if_neg hneg]
    obtain ⟨c, r, he⟩ := List.exists_cons_of_ne_nil hne
    have hdigc : isDigitCh c = true := hdig c (by rw [he]; simp)
    have hcne : ¬(c = '-') := digit_ne c '-' hdigc (by decide)
    rw [he, List.cons_append]
    unfold jsDateParse
    dsimp only
    rw [if_neg hcne]
    dsimp only
    rw [← List.cons_append, ← he, htake, hdrop]
    rw [if_pos ⟨hne, rfl⟩, ite_false_bool, digitsVal_natToDigits]
    congr 1
    omega

/-! ### The row tokenizer inverts the row encoder -/

theorem csvAux_nil (inQ : Bool) (cur : JStr) : parseCSVLineAux [] inQ cur = [cur] := rfl

theorem csvAux_qq (r cur : JStr) :
    parseCSVLineAux ('"' :: '"' :: r) true cur = parseCSVLineAux r true (cur ++ ['"']) := rfl

theorem csvAux_exit_nil (cur : JStr) : parseCSVLineAux ['"'] true cur = [cur] := rfl

theorem csvAux_comma (r cur : JStr) :
    parseCSVLineAux (',' :: r) false cur = cur :: parseCSVLineAux r false [] := rfl

theorem csvAux_enter (r cur : JStr) :
    parseCSVLineAux ('"' :: r) false cur = parseCSVLineAux r true cur := by
  rw [parseCSVLineAux.eq_def]
  split
  all_goals try simp_all
  all_goals (rename_i heq hne1 hne2; exact absurd heq.1.symm hne1)

theorem csvAux_exit (c : Char) (r cur : JStr) (hc : c ≠ '"') :
    parseCSVLineAux ('"' :: c :: r) true cur = parseCSVLineAux (c :: r) false cur := by
  rw [parseCSVLineAux.eq_def]
  split
  all_goals try simp_all
  all_goals (rename_i heq hne; exact absurd heq.1.symm hne)

theorem csvAux_other (c : Char) (r cur : JStr) (inQ : Bool) (hq : c ≠ '"')
    (hcomma : c ≠ ',' ∨ inQ = true) :
    parseCSVLineAux (c :: r) inQ cur = parseCSVLineAux r inQ (cur ++ [c]) := by
  rw [parseCSVLineAux.eq_def]
  split
  all_goals simp_all

theorem escQuote_quote (s : JStr) : escQuote ('"' :: s) = '"' :: '"' :: escQuote s := by
  simp [escQuote]

theorem escQuote_other (c : Char) (s : JStr) (hc : c ≠ '"') :
    escQuote (c :: s) = c :: escQuote s := by
  simp [escQuote, hc]

theorem csvAux_escQuote (s : JStr) : ∀ (rest cur : JStr),
    (rest = [] ∨ ∃ t, rest = ',' :: t) →
    parseCSVLineAux (escQuote s ++ '"' :: rest) true cur =
      parseCSVLineAux rest false (cur ++ s) := by
  induction s with
  | nil =>
    intro rest cur hrest
    simp only [escQuote, List.nil_append, List.append_nil]
    rcases hrest with rfl | ⟨t, rfl⟩
    · rw [csvAux_exit_nil, csvAux_nil]
    · rw [csvAux_exit ',' t cur (by decide)]
  | cons c s ih =>
    intro rest cur hrest
    by_cases hc : c = '"'
    · subst hc
      rw [escQuote_quote, List.cons_append, List.cons_append, csvAux_qq, ih rest _ hrest]
      simp
    · rw [escQuote_other c s hc, List.cons_append,
        csvAux_other c _ cur true hc (Or.inr rfl), ih rest _ hrest]
      simp

theorem joinSep_cons₂ (sep : Char) (x y : JStr) (ys : List JStr) :
    joinSep sep (x :: y :: ys) = x ++ sep :: joinSep sep (y :: ys) := rfl

theorem parseCSVLine_encodeRow : ∀ cells : List JStr, cells ≠ [] →
    parseCSVLine (encodeRow cells) = cells := by
  intro cells
  induction cells with
  | nil => intro h; exact absurd rfl h
  | cons c cs ih =>
    intro _
    cases cs with
    | nil =>
      show parseCSVLineAux (joinSep ',' [encodeCell c]) false [] = [c]
      show parseCSVLineAux (encodeCell c) false [] = [c]
      unfold encodeCell
      rw [csvAux_enter]
      rw [csvAux_escQuote c [] [] (Or.inl rfl)]
      rfl
    | cons c2 cs2 =>
      show parseCSVLineAux (joinSep ',' (List.map encodeCell (c :: c2 :: cs2))) false [] = _
      rw [List.map_cons, List.map_cons, joinSep_cons₂]
      unfold encodeCell
      rw [List.cons_append, csvAux_enter, List.append_assoc, List.cons_append]
      simp only [List.nil_append]
      rw [csvAux_escQuote c _ [] (Or.inr ⟨_, rfl⟩)]
      rw [List.nil_append, csvAux_comma]
      have hih := ih (by simp)
      unfold parseCSVLine at hih
      exact congrArg (List.cons c) hih

/-! ### Newline freedom and the line structure of the export -/

theorem mem_escQuote (c : Char) : ∀ s : JStr, c ∈ escQuote s → c = '"' ∨ c ∈ s := by
  intro s
  induction s with
  | nil => intro h; simp [escQuote] at h
  | cons d t ih =>
    intro h
    by_cases hd : d = '"'
    · subst hd
      rw [escQuote_quote] at h
      rcases List.mem_cons.1 h with rfl | h
      · exact Or.inl rfl
      rcases List.mem_cons.1 h with rfl | h
      · exact Or.inl rfl
      rcases ih h with h' | h'
      · exact Or.inl h'
      · exact Or.inr (List.mem_cons_of_mem _ h')
    · rw [escQuote_other d t hd] at h
      rcases List.mem_cons.1 h with rfl | h
      · exact Or.inr (by simp)
      rcases ih h with h' | h'
      · exact Or.inl h'
      · exact Or.inr (List.mem_cons_of_mem _ h')

theorem mem_joinSep (c sep : Char) : ∀ rows, c ∈ joinSep sep rows →
    c = sep ∨ ∃ r ∈ rows, c ∈ r
  | [] => by intro h; simp [joinSep] at h
  | [x] => by intro h; exact Or.inr ⟨x, by simp, h⟩
  | x :: y :: ys => by
    intro h
    rw [joinSep_cons₂] at h
    rcases List.mem_append.1 h with h | h
    · exact Or.inr ⟨x, by simp, h⟩
    · rcases List.mem_cons.1 h with rfl | h
      · exact Or.inl rfl
      · rcases mem_joinSep c sep (y :: ys) h with h' | ⟨r, hr, hc⟩
        · exact Or.inl h'
        · exact Or.inr ⟨r, List.mem_cons_of_mem _ hr, hc⟩

theorem noNl_encodeCell {s : JStr} (h : '\n' ∉ s) : '\n' ∉ encodeCell s := by
  intro hmem
  unfold encodeCell at hmem
  rcases List.mem_cons.1 hmem with he | hmem
  · exact absurd he (by decide)
  · rcases List.mem_append.1 hmem with hh | hh
    · rcases mem_escQuote _ s hh with he | he
      · exact absurd he (by decide)
      · exact h he
    · rw [List.mem_singleton] at hh
      exact absurd hh (by decide)

theorem noNl_encodeRow {cells : List JStr} (h : ∀ s ∈ cells, '\n' ∉ s) :
    '\n' ∉ encodeRow cells := by
  intro hmem
  rcases mem_joinSep '\n' ',' (cells.map encodeCell) hmem with he | ⟨r, hr, hc⟩
  · exact absurd he (by decide)
  · obtain ⟨s, hs, rfl⟩ := List.mem_map.1 hr
    exact noNl_encodeCell (h s hs) hc

theorem splitNl_cons (c : Char) (t : JStr) :
    splitNl (c :: t) = if c = '\n' then [] :: splitNl t
      else match splitNl t with | [] => [[c]] | l :: ls => (c :: l) :: ls := rfl

theorem splitNl_no_nl {s : JStr} (h : '\n' ∉ s) : splitNl s = [s] := by
  induction s with
  | nil => rfl
  | cons c t ih =>
    have hc : ¬(c = '\n') := fun e => h (by simp [e])
    rw [splitNl_cons, if_neg hc, ih (fun hm => h (List.mem_cons_of_mem _ hm))]

theorem splitNl_append_nl (x t : JStr) (h : '\n' ∉ x) :
    splitNl (x ++ '\n' :: t) = x :: splitNl t := by
  induction x with
  | nil =>
    rw [List.nil_append, splitNl_cons, if_pos rfl]
  | cons c r ih =>
    have hc : ¬(c = '\n') := fun e => h (by simp [e])
    rw [List.cons_append, splitNl_cons, if_neg hc,
      ih (fun hm => h (List.mem_cons_of_mem _ hm))]

theorem splitNl_joinSep : ∀ rows : List JStr, rows ≠ [] → (∀ r ∈ rows, '\n' ∉ r) →
    splitNl (joinSep '\n' rows) = rows
  | [], h, _ => absurd rfl h
  | [x], _, h => splitNl_no_nl (h x (by simp))
  | x :: y :: ys, _, h => by
    rw [joinSep_cons₂, splitNl_append_nl x _ (h x (by simp))]
    rw [splitNl_joinSep (y :: ys) (by simp) (fun r hr => h r (List.mem_cons_of_mem _ hr))]

/-! ### The export text has quote characters at both ends, so trim is the
identity on it -/

theorem dropWhile_eq_self_of_head (p : Char → Bool) (s : JStr)
    (h : ∀ c, s.head? = some c → p c = false) : s.dropWhile p = s := by
  cases s with
  | nil => rfl
  | cons c t => exact List.dropWhile_cons_of_neg (by simp [h c rfl])

theorem jsTrim_eq_self (s : JStr) (h1 : ∀ c, s.head? = some c → jsWS c = false)
    (h2 : ∀ c, s.getLast? = some c → jsWS c = false) : jsTrim s = s := by
  unfold jsTrim
  rw [dropWhile_eq_self_of_head _ _ h1,
    dropWhile_eq_self_of_head _ _ (fun c hc => h2 c (by rwa [List.head?_reverse] at hc)),
    List.reverse_reverse]

theorem getLast?_append_right (a : JStr) (b : JStr) (hb : b ≠ []) :
    (a ++ b).getLast? = b.getLast? :=
  List.getLast?_append_of_ne_nil a hb

theorem encodeCell_head (s : JStr) : (encodeCell s).head? = some '"' := rfl

theorem encodeCell_getLast (s : JStr) : (encodeCell s).getLast? = some '"' := by
  show ('"' :: (escQuote s ++ ['"'])).getLast? = some '"'
  rw [show ('"' :: (escQuote s ++ ['"'])) = ('"' :: escQuote s) ++ ['"'] from rfl]
  rw [getLast?_append_right _ _ (by simp)]
  rfl

theorem joinSep_head (sep : Char) (x : JStr) (xs : List JStr) (hx : x.head? = some '"') :
    (joinSep sep (x :: xs)).head? = some '"' := by
  cases xs with
  | nil => exact hx
  | cons y ys =>
    rw [joinSep_cons₂]
    cases x with
    | nil => cases hx
    | cons c t =>
      rw [List.cons_append]
      simpa using hx

theorem joinSep_getLast (sep : Char) : ∀ (x : JStr) (xs : List JStr),
    (∀ r ∈ x :: xs, r.getLast? = some '"') →
    (joinSep sep (x :: xs)).getLast? = some '"'
  | x, [], h => h x (by simp)
  | x, y :: ys, h => by
    rw [joinSep_cons₂]
    have hrec := joinSep_getLast sep y ys (fun r hr => h r (List.mem_cons_of_mem _ hr))
    have hne : joinSep sep (y :: ys) ≠ [] := by
      intro he
      rw [he] at hrec
      cases hrec
    rw [getLast?_append_right _ _ (by simp),
      show (sep :: joinSep sep (y :: ys)) = [sep] ++ joinSep sep (y :: ys) from rfl,
      getLast?_append_right _ _ hne, hrec]

theorem encodeRow_head (cells : List JStr) (h : cells ≠ []) :
    (encodeRow cells).head? = some '"' := by
  obtain ⟨c, cs, rfl⟩ := List.exists_cons_of_ne_nil h
  unfold encodeRow
  rw [List.map_cons]
  exact joinSep_head ',' _ _ (encodeCell_head c)

theorem encodeRow_getLast (cells : List JStr) (h : cells ≠ []) :
    (encodeRow cells).getLast? = some '"' := by
  obtain ⟨c, cs, rfl⟩ := List.exists_cons_of_ne_nil h
  unfold encodeRow
  rw [List.map_cons]
  refine joinSep_getLast ',' _ _ ?_
  intro r hr
  rcases List.mem_cons.1 hr with rfl | hr
  · exact encodeCell_getLast c
  · obtain ⟨s, _, rfl⟩ := List.mem_map.1 hr
    exact encodeCell_getLast s

theorem csvHeaders_ne_nil (flag : Bool) : csvHeaders flag ≠ [] := by
  cases flag <;> simp [csvHeaders]

theorem recordRow_ne_nil (item : ExoplanetData) (flag : Bool) : recordRow item flag ≠ [] := by
  cases flag <;> simp [recordRow]

theorem jsTrim_exportToCSV (data : List ExoplanetData) (flag : Bool) :
    jsTrim (exportToCSV data flag) = exportToCSV data flag := by
  unfold exportToCSV
  rw [List.map_cons]
  apply jsTrim_eq_self
  · intro c hc
    rw [joinSep_head '\n' _ _ (encodeRow_head _ (csvHeaders_ne_nil flag))] at hc
    cases hc
    decide
  · intro c hc
    rw [joinSep_getLast '\n' _ _ ?_] at hc
    · cases hc
      decide
    · intro r hr
      rcases List.mem_cons.1 hr with rfl | hr
      · exact encodeRow_getLast _ (csvHeaders_ne_nil flag)
      · obtain ⟨cells, hcells, rfl⟩ := List.mem_map.1 hr
        obtain ⟨item, _, rfl⟩ := List.mem_map.1 hcells
        exact encodeRow_getLast _ (recordRow_ne_nil item flag)

/-! ### The cells produced by the export contain no newline -/

theorem noNl_natToDigits (n : Nat) : '\n' ∉ natToDigits n := by
  intro h
  exact absurd (natToDigits_digits n '\n' h) (by decide)

theorem noNl_natToDigitsPad (k m : Nat) : '\n' ∉ natToDigitsPad k m := by
  intro h
  exact absurd (natToDigitsPad_digits k m '\n' h) (by decide)

theorem noNl_sgn (q : ℚ) : '\n' ∉ (if q.num < 0 then ['-'] else ([] : JStr)) := by
  by_cases hq : q.num < 0
  · rw [if_pos hq]
    intro h
    rw [List.mem_singleton] at h
    exact absurd h (by decide)
  · rw [if_neg hq]
    exact List.not_mem_nil _

theorem noNl_ratToString (q : ℚ) : '\n' ∉ ratToString q := by
  unfold ratToString
  cases hd : decExp q.den with
  | none => dsimp only; decide
  | some k =>
    dsimp only
    by_cases hk : k = 0
    · rw [if_pos hk]
      intro h
      rcases List.mem_append.1 h with h | h
      · exact noNl_sgn q h
      · exact noNl_natToDigits _ h
    · rw [if_neg hk]
      intro h
      rcases List.mem_append.1 h with h | h
      · rcases List.mem_append.1 h with h | h
        · exact noNl_sgn q h
        · exact noNl_natToDigits _ h
      · rcases List.mem_cons.1 h with h | h
        · exact absurd h (by decide)
        · exact noNl_natToDigitsPad _ _ h

theorem noNl_toString (m : JSNum) : '\n' ∉ m.toString := by
  cases m with
  | nan => decide
  | inf b => cases b <;> decide
  | num q => exact noNl_ratToString q

theorem noNl_intToDigits (t : Int) : '\n' ∉ intToDigits t := by
  unfold intToDigits
  by_cases ht : t < 0
  · rw [if_pos ht]
    intro h
    rcases List.mem_cons.1 h with h | h
    · exact absurd h (by decide)
    · exact noNl_natToDigits _ h
  · rw [if_neg ht]
    exact noNl_natToDigits _

theorem noNl_dateToISO (t : Int) : '\n' ∉ dateToISO (some t) := by
  show '\n' ∉ intToDigits t ++ ['Z']
  intro h
  rcases List.mem_append.1 h with h | h
  · exact noNl_intToDigits t h
  · rw [List.mem_singleton] at h
    exact absurd h (by decide)

theorem recordRow_false (r : ExoplanetData) :
    recordRow r false =
      [r.name, r.orbitalPeriod.toString, r.transitDepth.toString,
       r.transitDuration.toString, r.signalToNoiseRatio.toString,
       r.stellarProperties.radius.toString, r.stellarProperties.temperature.toString,
       r.stellarProperties.magnitude.toString, dateToISO r.dateAdded,
       r.notes.getD []] := by
  simp [recordRow]

theorem recordRow_noNl (r : ExoplanetData) (hname : '\n' ∉ r.name)
    (hnotes : ∀ s, r.notes = some s → '\n' ∉ s) (hdate : r.dateAdded.isSome = true) :
    ∀ s ∈ recordRow r false, '\n' ∉ s := by
  obtain ⟨t, ht⟩ := Option.isSome_iff_exists.mp hdate
  intro s hs
  rw [recordRow_false] at hs
  simp only [List.mem_cons, List.not_mem_nil, or_false] at hs
  rcases hs with rfl | rfl | rfl | rfl | rfl | rfl | rfl | rfl | rfl | rfl
  · exact hname
  · exact noNl_toString _
  · exact noNl_toString _
  · exact noNl_toString _
  · exact noNl_toString _
  · exact noNl_toString _
  · exact noNl_toString _
  · exact noNl_toString _
  · rw [ht]; exact noNl_dateToISO t
  · cases hn : r.notes with
    | none => simp [hn, Option.getD]
    | some s' =>
      simpa using hnotes s' hn

theorem csvHeaders_noNl (flag : Bool) : ∀ s ∈ csvHeaders flag, '\n' ∉ s := by
  cases flag <;> decide

theorem isNaN_eq_false_of_finDec (m : JSNum) (h : m.finDec = true) : m.isNaN = false := by
  cases m <;> simp_all [JSNum.finDec, JSNum.isNaN]

theorem dateToISO_some_ne_nil (t : Int) : dateToISO (some t) ≠ [] := by
  show intToDigits t ++ ['Z'] ≠ []
  simp

theorem isEmpty_false_of_ne_nil (s : JStr) (h : s ≠ []) : s.isEmpty = false := by
  cases s with
  | nil => exact absurd rfl h
  | cons c t => rfl

theorem noNl_iff (s : JStr) : noNl s = true ↔ '\n' ∉ s := by
  simp [noNl]

theorem vr_name {r : ExoplanetData} (h : ValidRecord r = true) :
    (jsTrim r.name).isEmpty = false := by
  simp only [ValidRecord, Bool.and_eq_true, Bool.not_eq_true'] at h
  tauto

theorem vr_op {r : ExoplanetData} (h : ValidRecord r = true) :
    r.orbitalPeriod.finDec = true := by
  simp only [ValidRecord, Bool.and_eq_true] at h
  tauto

theorem vr_date {r : ExoplanetData} (h : ValidRecord r = true) :
    r.dateAdded.isSome = true := by
  simp only [ValidRecord, Bool.and_eq_true] at h
  tauto

theorem cs_result {r : ExoplanetData} (h : csvSafe r = true) : r.result = none := by
  simp only [csvSafe, Bool.and_eq_true] at h
  exact Option.isNone_iff_eq_none.mp h.2

theorem cs_notes {r : ExoplanetData} (h : csvSafe r = true) :
    r.notes = none ∨ ∃ s, r.notes = some s ∧ s ≠ [] ∧ '\n' ∉ s := by
  simp only [csvSafe, Bool.and_eq_true] at h
  obtain ⟨⟨-, hn⟩, -⟩ := h
  cases hnn : r.notes with
  | none => exact Or.inl rfl
  | some s =>
    rw [hnn] at hn
    simp only [Bool.and_eq_true] at hn
    refine Or.inr ⟨s, rfl, ?_, (noNl_iff s).mp hn.2⟩
    intro he
    rw [he] at hn
    exact absurd hn.1 (by decide)


theorem vr_td {r : ExoplanetData} (h : ValidRecord r = true) :
    r.transitDepth.finDec = true := by
  simp only [ValidRecord, Bool.and_eq_true] at h
  tauto

theorem vr_tdur {r : ExoplanetData} (h : ValidRecord r = true) :
    r.transitDuration.finDec = true := by
  simp only [ValidRecord, Bool.and_eq_true] at h
  tauto

theorem vr_snr {r : ExoplanetData} (h : ValidRecord r = true) :
    r.signalToNoiseRatio.finDec = true := by
  simp only [ValidRecord, Bool.and_eq_true] at h
  tauto

theorem vr_rad {r : ExoplanetData} (h : ValidRecord r = true) :
    r.stellarProperties.radius.finDec = true := by
  simp only [ValidRecord, Bool.and_eq_true] at h
  tauto

theorem vr_temp {r : ExoplanetData} (h : ValidRecord r = true) :
    r.stellarProperties.temperature.finDec = true := by
  simp only [ValidRecord, Bool.and_eq_true] at h
  tauto

theorem vr_mag {r : ExoplanetData} (h : ValidRecord r = true) :
    r.stellarProperties.magnitude.finDec = true := by
  simp only [ValidRecord, Bool.and_eq_true] at h
  tauto

theorem cs_name {r : ExoplanetData} (h : csvSafe r = true) : '\n' ∉ r.name := by
  simp only [csvSafe, Bool.and_eq_true] at h
  exact (noNl_iff r.name).mp h.1.1

theorem importLine_encodeRow (now : Int) (fresh : Nat → JStr) (i : Nat) (r : ExoplanetData)
    (hv : ValidRecord r = true) (hs : csvSafe r = true) :
    importLine now fresh i (encodeRow (recordRow r false)) = .ok { r with id := fresh i } := by
  have hcells := (parseCSVLine_encodeRow (recordRow r false)
    (recordRow_ne_nil r false)).trans (recordRow_false r)
  obtain ⟨t, ht⟩ := Option.isSome_iff_exists.mp (vr_date hv)
  simp only [importLine, hcells, List.getD_cons_zero, List.getD_cons_succ,
    List.length_cons, List.length_nil]
  rw [if_neg (by omega)]
  rw [parseFloat_toString _ (vr_op hv), parseFloat_toString _ (vr_td hv),
    parseFloat_toString _ (vr_tdur hv), parseFloat_toString _ (vr_snr hv),
    parseFloat_toString _ (vr_rad hv), parseFloat_toString _ (vr_temp hv),
    parseFloat_toString _ (vr_mag hv)]
  rw [ht, isEmpty_false_of_ne_nil (dateToISO (some t)) (dateToISO_some_ne_nil t),
    jsDateParse_dateToISO t]
  rw [isNaN_eq_false_of_finDec _ (vr_op hv), isNaN_eq_false_of_finDec _ (vr_td hv),
    isNaN_eq_false_of_finDec _ (vr_tdur hv), isNaN_eq_false_of_finDec _ (vr_snr hv),
    isNaN_eq_false_of_finDec _ (vr_rad hv), isNaN_eq_false_of_finDec _ (vr_temp hv),
    isNaN_eq_false_of_finDec _ (vr_mag hv), vr_name hv]
  simp only [Bool.or_self, Bool.or_false, Bool.false_or]
  rcases cs_notes hs with hn | ⟨s, hn, hsne, -⟩
  · rw [hn]
    simp only [Option.getD_none, Option.getD_some, List.isEmpty_nil]
    simp only [ite_true_bool, ite_false_bool]
    rw [cs_result hs]
    simp
  · rw [hn]
    simp only [Option.getD_none, Option.getD_some]
    rw [isEmpty_false_of_ne_nil s hsne]
    simp only [ite_true_bool, ite_false_bool]
    rw [cs_result hs]

/-! ### The import loop -/

theorem cs_notes_noNl {r : ExoplanetData} (h : csvSafe r = true) :
    ∀ s, r.notes = some s → '\n' ∉ s := by
  intro s hs
  rcases cs_notes h with hn | ⟨s', hn, _, hnl⟩
  · rw [hn] at hs
    cases hs
  · rw [hn] at hs
    injection hs with he
    rw [he] at hnl
    exact hnl

theorem importLines_cons (now : Int) (fresh : Nat → JStr) (i : Nat) (l : JStr)
    (ls : List JStr) :
    importLines now fresh i (l :: ls) =
      importLine now fresh i l :: importLines now fresh (i + 1) ls := rfl

theorem importLines_length (now : Int) (fresh : Nat → JStr) :
    ∀ (i : Nat) (ls : List JStr), (importLines now fresh i ls).length = ls.length
  | _, [] => rfl
  | i, l :: ls => by
    rw [importLines_cons, List.length_cons, List.length_cons,
      importLines_length now fresh (i + 1) ls]

theorem mem_importLines (now : Int) (fresh : Nat → JStr) :
    ∀ (i : Nat) (ls : List JStr) (x), x ∈ importLines now fresh i ls →
    ∃ j, ∃ h : j < ls.length, x = importLine now fresh (i + j) (ls.get ⟨j, h⟩)
  | i, [], x, hx => by simp [importLines] at hx
  | i, l :: ls, x, hx => by
    rw [importLines_cons] at hx
    rcases List.mem_cons.1 hx with rfl | hx
    · exact ⟨0, by simp, by simp⟩
    · obtain ⟨j, hj, he⟩ := mem_importLines now fresh (i + 1) ls x hx
      refine ⟨j + 1, by simpa using hj, ?_⟩
      rw [he]
      congr 1
      omega

theorem importLine_mem_importLines (now : Int) (fresh : Nat → JStr) :
    ∀ (i : Nat) (ls : List JStr) (j : Nat) (h : j < ls.length),
    importLine now fresh (i + j) (ls.get ⟨j, h⟩) ∈ importLines now fresh i ls
  | _, [], j, h => absurd h (by simp)
  | i, l :: ls, 0, h => by
    rw [importLines_cons]
    simp
  | i, l :: ls, j + 1, h => by
    rw [importLines_cons]
    refine List.mem_cons_of_mem _ ?_
    have hrec := importLine_mem_importLines now fresh (i + 1) ls j (by simpa using h)
    have hidx : i + (j + 1) = (i + 1) + j := by omega
    rw [hidx]
    simpa using hrec

theorem importFromCSV_eq (now : Int) (fresh : Nat → JStr) (csv : JStr) :
    importFromCSV now fresh csv =
      { successful :=
          (importLines now fresh 1 ((splitNl (jsTrim csv)).drop 1)).filterMap okOpt
        failed :=
          (importLines now fresh 1 ((splitNl (jsTrim csv)).drop 1)).filterMap errOpt } := rfl

theorem filterMap_partition : ∀ results : List (Except FailedEntry ExoplanetData),
    (results.filterMap okOpt).length + (results.filterMap errOpt).length = results.length
  | [] => rfl
  | x :: rs => by
    have ih := filterMap_partition rs
    cases x with
    | ok r =>
      simp only [List.filterMap_cons, okOpt, errOpt, List.length_cons]
      omega
    | error e =>
      simp only [List.filterMap_cons, okOpt, errOpt, List.length_cons]
      omega

theorem importLine_short (now : Int) (fresh : Nat → JStr) (i : Nat) (line : JStr)
    (h : (parseCSVLine line).length < 8) :
    importLine now fresh i line =
      .error ⟨i + 1, js "Insufficient columns", parseCSVLine line⟩ := by
  unfold importLine
  rw [if_pos h]

theorem importLine_row (now : Int) (fresh : Nat → JStr) (i : Nat) (line : JStr)
    (e : FailedEntry) (h : importLine now fresh i line = .error e) : e.row = i + 1 := by
  unfold importLine at h
  dsimp only at h
  split at h
  · cases h
    rfl
  · split at h
    · cases h
      rfl
    · cases h

theorem importLine_ok_inv (now : Int) (fresh : Nat → JStr) (i : Nat) (line : JStr)
    (r : ExoplanetData) (h : importLine now fresh i line = .ok r) :
    r.orbitalPeriod.isNaN = false ∧ r.transitDepth.isNaN = false ∧
    r.transitDuration.isNaN = false ∧ r.signalToNoiseRatio.isNaN = false ∧
    r.stellarProperties.radius.isNaN = false ∧
    r.stellarProperties.temperature.isNaN = false ∧
    r.stellarProperties.magnitude.isNaN = false ∧
    (jsTrim r.name).isEmpty = false := by
  unfold importLine at h
  dsimp only at h
  split at h
  · cases h
  · split at h
    · cases h
    · rename_i hguard
      cases h
      simp only [Bool.or_eq_true, not_or, Bool.not_eq_true] at hguard
      dsimp only
      tauto

theorem importLine_dateAdded (now : Int) (fresh : Nat → JStr) (i : Nat) (line : JStr)
    (r : ExoplanetData) (h : importLine now fresh i line = .ok r) :
    r.dateAdded =
      (if ((parseCSVLine line).getD 8 []).isEmpty = true then some now
       else jsDateParse ((parseCSVLine line).getD 8 [])) := by
  unfold importLine at h
  dsimp only at h
  split at h
  · cases h
  · split at h
    · cases h
    · cases h
      rfl

theorem importLines_export (now : Int) (fresh : Nat → JStr) :
    ∀ (l : List ExoplanetData) (i : Nat),
    (∀ r ∈ l, ValidRecord r = true ∧ csvSafe r = true) →
    ((importLines now fresh i (l.map (fun r => encodeRow (recordRow r false)))).filterMap
        errOpt = [] ∧
      List.Forall₂ eqExceptId
        ((importLines now fresh i (l.map (fun r => encodeRow (recordRow r false)))).filterMap
          okOpt) l)
  | [], _, _ => ⟨rfl, List.Forall₂.nil⟩
  | r :: l, i, h => by
    obtain ⟨hv, hs⟩ := h r (by simp)
    have ih := importLines_export now fresh l (i + 1)
      (fun x hx => h x (List.mem_cons_of_mem _ hx))
    rw [List.map_cons, importLines_cons, importLine_encodeRow now fresh i r hv hs]
    constructor
    · simp only [List.filterMap_cons, errOpt]
      exact ih.1
    · simp only [List.filterMap_cons, okOpt]
      refine List.Forall₂.cons ?_ ih.2
      show eqExceptId { r with id := fresh i } r
      unfold eqExceptId
      rfl

theorem splitNl_export (l : List ExoplanetData)
    (h : ∀ r ∈ l, ValidRecord r = true ∧ csvSafe r = true) :
    splitNl (jsTrim (exportToCSV l false)) =
      encodeRow (csvHeaders false) :: l.map (fun r => encodeRow (recordRow r false)) := by
  rw [jsTrim_exportToCSV]
  unfold exportToCSV
  rw [List.map_cons, List.map_map]
  apply splitNl_joinSep
  · simp
  intro row hrow
  rcases List.mem_cons.1 hrow with rfl | hrow
  · exact noNl_encodeRow (csvHeaders_noNl false)
  · obtain ⟨r, hr, rfl⟩ := List.mem_map.1 hrow
    obtain ⟨hv, hsafe⟩ := h r hr
    exact noNl_encodeRow (recordRow_noNl r (cs_name hsafe) (cs_notes_noNl hsafe) (vr_date hv))

/-! ### Shared helpers for the claim theorems -/

theorem importMemHelper (now : Int) (fresh : Nat → JStr) (csv : JStr) (j : Nat)
    (hj : j < ((splitNl (jsTrim csv)).drop 1).length) :
    (∀ r, importLine now fresh (1 + j) (((splitNl (jsTrim csv)).drop 1).get ⟨j, hj⟩) = .ok r →
      r ∈ (importFromCSV now fresh csv).successful) ∧
    (∀ e, importLine now fresh (1 + j) (((splitNl (jsTrim csv)).drop 1).get ⟨j, hj⟩) = .error e →
      e ∈ (importFromCSV now fresh csv).failed) := by
  constructor
  · intro r hr
    rw [importFromCSV_eq]
    exact List.mem_filterMap.2
      ⟨_, importLine_mem_importLines now fresh 1 _ j hj, by rw [hr]; rfl⟩
  · intro e hee
    rw [importFromCSV_eq]
    exact List.mem_filterMap.2
      ⟨_, importLine_mem_importLines now fresh 1 _ j hj, by rw [hee]; rfl⟩

theorem checkNumericField_negMin (value fieldName : JStr) (q : ℚ)
    (hv : parseFloat value = .num q) (hq : q < 0) :
    checkNumericField value fieldName (some 0) =
      [fieldName ++ js " must be greater than " ++ ratToString 0] := by
  unfold checkNumericField
  rw [hv]
  dsimp only [JSNum.isNaN, JSNum.lt]
  rw [ite_false_bool, decide_eq_true hq, ite_true_bool]

theorem checkNumericField_ok (value fieldName : JStr) (h : fieldOkB value = true) :
    checkNumericField value fieldName (some 0) = [] := by
  unfold fieldOkB at h
  simp only [Bool.and_eq_true, Bool.not_eq_true'] at h
  unfold checkNumericField
  dsimp only
  rw [h.1, ite_false_bool, h.2, ite_false_bool]

theorem checkNumericField_noMin (value fieldName : JStr)
    (h : (parseFloat value).isNaN = false) :
    checkNumericField value fieldName none = [] := by
  unfold checkNumericField
  dsimp only
  rw [h, ite_false_bool]

theorem checkNumericField_nan (value fieldName : JStr) (minB : Option ℚ)
    (h : (parseFloat value).isNaN = true) :
    checkNumericField value fieldName minB = [fieldName ++ js " must be a valid number"] := by
  unfold checkNumericField
  dsimp only
  rw [h, ite_true_bool]

/-! ### Claim theorems -/

/-- Claim C1, counterexample: `recNl` satisfies the spec's record invariant
(`ValidRecord`), yet exporting the one-record collection `[recNl]` and
re-importing it does not leave `failed` empty — the newline inside the
quoted `name` splits the row across two lines before tokenization.  This
refutes the claim as stated. -/
theorem C1_counterexample :
    ValidRecord recNl = true ∧
      (importFromCSV 0 f0 (exportToCSV [recNl] false)).failed ≠ [] := by
  constructor
  · decide
  · decide

/-- Claim C1 (amended): for every non-empty list of valid records whose
`name` and `notes` contain no newline, whose `notes` is non-empty when
present, and which carry no `result` annotation, exporting and re-importing
yields `failed = []` and a successful list equal to the original, in order,
in every field except the freshly generated `id` (timestamps round-trip
exactly in the model, i.e. to timestamp granularity). -/
theorem C1_roundTrip (now : Int) (fresh : Nat → JStr) (l : List ExoplanetData)
    (hne : l ≠ []) (h : ∀ r ∈ l, ValidRecord r = true ∧ csvSafe r = true) :
    (importFromCSV now fresh (exportToCSV l false)).failed = [] ∧
      List.Forall₂ eqExceptId (importFromCSV now fresh (exportToCSV l false)).successful l := by
  rw [importFromCSV_eq, splitNl_export l h]
  dsimp only
  rw [List.drop_succ_cons, List.drop_zero]
  exact importLines_export now fresh l 1 h

/-- Witness for C1: the round trip at the concrete one-record collection
`[exRecord]`. -/
theorem C1_witness :
    (importFromCSV 0 f0 (exportToCSV [exRecord] false)).failed = [] ∧
      List.Forall₂ eqExceptId (importFromCSV 0 f0 (exportToCSV [exRecord] false)).successful
        [exRecord] := by
  refine C1_roundTrip 0 f0 [exRecord] (by simp) ?_
  intro r hr
  rw [List.mem_singleton] at hr
  subst hr
  exact ⟨by decide, by decide⟩

/-- Claim C2, counterexample: the import of `csvNeg` (orbital period `-5`)
places a record with a negative orbital period into `successful`, so the
imported records do not all satisfy the `≥ 0` invariant. -/
theorem C2_counterexample :
    ¬ (∀ r ∈ (importFromCSV 0 f0 csvNeg).successful, r.orbitalPeriod.nonneg = true) := by
  decide

/-- Claim C2 (amended): every record in `successful` has all seven numeric
fields non-NaN and a name that is non-empty after trimming; the import
applies no minimum-value check, so `≥ 0` is not guaranteed. -/
theorem C2_importInvariant (now : Int) (fresh : Nat → JStr) (csv : JStr)
    (r : ExoplanetData) (h : r ∈ (importFromCSV now fresh csv).successful) :
    r.orbitalPeriod.isNaN = false ∧ r.transitDepth.isNaN = false ∧
    r.transitDuration.isNaN = false ∧ r.signalToNoiseRatio.isNaN = false ∧
    r.stellarProperties.radius.isNaN = false ∧
    r.stellarProperties.temperature.isNaN = false ∧
    r.stellarProperties.magnitude.isNaN = false ∧
    (jsTrim r.name).isEmpty = false := by
  rw [importFromCSV_eq] at h
  obtain ⟨x, hx, ho⟩ := List.mem_filterMap.1 h
  obtain ⟨j, hj, he⟩ := mem_importLines now fresh 1 _ x hx
  have hxr : importLine now fresh (1 + j)
      (((splitNl (jsTrim csv)).drop 1).get ⟨j, hj⟩) = .ok r := by
    rw [← he]
    cases x with
    | ok r' =>
      have hrr : r' = r := by simpa [okOpt] using ho
      rw [hrr]
    | error e => simp [okOpt] at ho
  exact importLine_ok_inv _ _ _ _ _ hxr

/-- Witness for C2: the record imported from `csvNeg` is in `successful`
and its orbital period is not NaN. -/
theorem C2_witness :
    c2rec ∈ (importFromCSV 0 f0 csvNeg).successful ∧ c2rec.orbitalPeriod.isNaN = false :=
  ⟨by decide, (C2_importInvariant 0 f0 csvNeg c2rec (by decide)).1⟩

/-- Claim C3, counterexample: in `csvBad` the only data line is the line
with index 1 of the file, so the claim predicts its failure entry has
`row = 1`; the code records `row = 2`. -/
theorem C3_counterexample :
    (importFromCSV 0 f0 csvBad).failed.map FailedEntry.row = [2] ∧
      ¬ (∀ e ∈ (importFromCSV 0 f0 csvBad).failed, e.row = 1) := by
  constructor
  · decide
  · decide

/-- Claim C3 (amended): every entry of `failed` comes from a data line —
the line with 0-based index `j` within the data lines, i.e. file line
`j + 1` — and carries `row = j + 2`: data rows are numbered from 2, not 1,
in error reports (the code stores `i + 1` for the line at file index `i`). -/
theorem C3_rowNumbers (now : Int) (fresh : Nat → JStr) (csv : JStr) (e : FailedEntry)
    (h : e ∈ (importFromCSV now fresh csv).failed) :
    ∃ j, ∃ hj : j < ((splitNl (jsTrim csv)).drop 1).length,
      importLine now fresh (1 + j) (((splitNl (jsTrim csv)).drop 1).get ⟨j, hj⟩) = .error e ∧
      e.row = j + 2 := by
  rw [importFromCSV_eq] at h
  obtain ⟨x, hx, ho⟩ := List.mem_filterMap.1 h
  obtain ⟨j, hj, he⟩ := mem_importLines now fresh 1 _ x hx
  have hxe : importLine now fresh (1 + j)
      (((splitNl (jsTrim csv)).drop 1).get ⟨j, hj⟩) = .error e := by
    rw [← he]
    cases x with
    | ok r => simp [errOpt] at ho
    | error e' =>
      have hee : e' = e := by simpa [errOpt] using ho
      rw [hee]
  refine ⟨j, hj, hxe, ?_⟩
  have hrow := importLine_row _ _ _ _ _ hxe
  omega

/-- Witness for C3: the failure entry of `csvBad` and its row number. -/
theorem C3_witness :
    c3ent ∈ (importFromCSV 0 f0 csvBad).failed ∧
      ∃ j, ∃ hj : j < ((splitNl (jsTrim csvBad)).drop 1).length,
        importLine 0 f0 (1 + j) (((splitNl (jsTrim csvBad)).drop 1).get ⟨j, hj⟩) =
          .error c3ent ∧ c3ent.row = j + 2 :=
  ⟨by decide, C3_rowNumbers 0 f0 csvBad c3ent (by decide)⟩

/-- Claim C4: failures are isolated per row and the batch never aborts —
for every data line, a successful parse lands in `successful` and a failed
parse lands in `failed` (so no row can prevent another row from being
processed). -/
theorem C4_partialSuccess (now : Int) (fresh : Nat → JStr) (csv : JStr) (j : Nat)
    (hj : j < ((splitNl (jsTrim csv)).drop 1).length) :
    (∀ r, importLine now fresh (1 + j) (((splitNl (jsTrim csv)).drop 1).get ⟨j, hj⟩) = .ok r →
      r ∈ (importFromCSV now fresh csv).successful) ∧
    (∀ e, importLine now fresh (1 + j) (((splitNl (jsTrim csv)).drop 1).get ⟨j, hj⟩) = .error e →
      e ∈ (importFromCSV now fresh csv).failed) :=
  importMemHelper now fresh csv j hj

/-- Witness for C4: the spec's example — three valid rows and one row with
a non-numeric transit depth yield 3 successes and 1 failure. -/
theorem C4_witness :
    (importFromCSV 0 f0 csvPartial).successful.length = 3 ∧
    (importFromCSV 0 f0 csvPartial).failed.length = 1 ∧
    (∀ e, importLine 0 f0 (1 + 2)
        (((splitNl (jsTrim csvPartial)).drop 1).get ⟨2, by decide⟩) = .error e →
      e ∈ (importFromCSV 0 f0 csvPartial).failed) :=
  ⟨by decide, by decide, (C4_partialSuccess 0 f0 csvPartial 2 (by decide)).2⟩

/-- Claim C5: a data row that tokenizes to fewer than 8 tokens produces the
failure entry with error `Insufficient columns` carrying the raw tokens,
that entry is recorded in `failed`, and every other line of the file is
still processed into `successful` or `failed` as usual (nothing throws —
the import is a total function in the model). -/
theorem C5_insufficientColumns (now : Int) (fresh : Nat → JStr) (csv : JStr) (j : Nat)
    (hj : j < ((splitNl (jsTrim csv)).drop 1).length)
    (hshort : (parseCSVLine (((splitNl (jsTrim csv)).drop 1).get ⟨j, hj⟩)).length < 8) :
    importLine now fresh (1 + j) (((splitNl (jsTrim csv)).drop 1).get ⟨j, hj⟩) =
      .error ⟨j + 2, js "Insufficient columns",
        parseCSVLine (((splitNl (jsTrim csv)).drop 1).get ⟨j, hj⟩)⟩ ∧
    (⟨j + 2, js "Insufficient columns",
        parseCSVLine (((splitNl (jsTrim csv)).drop 1).get ⟨j, hj⟩)⟩ : FailedEntry) ∈
      (importFromCSV now fresh csv).failed ∧
    (∀ j2 (hj2 : j2 < ((splitNl (jsTrim csv)).drop 1).length),
      (∀ r, importLine now fresh (1 + j2)
          (((splitNl (jsTrim csv)).drop 1).get ⟨j2, hj2⟩) = .ok r →
        r ∈ (importFromCSV now fresh csv).successful) ∧
      (∀ e, importLine now fresh (1 + j2)
          (((splitNl (jsTrim csv)).drop 1).get ⟨j2, hj2⟩) = .error e →
        e ∈ (importFromCSV now fresh csv).failed)) := by
  have hrow : (1 + j) + 1 = j + 2 := by omega
  have hline := importLine_short now fresh (1 + j) _ hshort
  rw [hrow] at hline
  exact ⟨hline, (importMemHelper now fresh csv j hj).2 _ hline,
    fun j2 hj2 => importMemHelper now fresh csv j2 hj2⟩

/-- Witness for C5: the spec's example — a data row with only five
comma-separated tokens is rejected with `Insufficient columns`. -/
theorem C5_witness :
    importLine 0 f0 (1 + 0) (((splitNl (jsTrim csvShort)).drop 1).get ⟨0, by decide⟩) =
      .error ⟨0 + 2, js "Insufficient columns",
        parseCSVLine (((splitNl (jsTrim csvShort)).drop 1).get ⟨0, by decide⟩)⟩ ∧
    (⟨0 + 2, js "Insufficient columns",
        parseCSVLine (((splitNl (jsTrim csvShort)).drop 1).get ⟨0, by decide⟩)⟩ : FailedEntry) ∈
      (importFromCSV 0 f0 csvShort).failed :=
  ⟨(C5_insufficientColumns 0 f0 csvShort 0 (by decide) (by decide)).1,
    (C5_insufficientColumns 0 f0 csvShort 0 (by decide) (by decide)).2.1⟩

/-- Claim C6: the validator applies every rule and collects all errors —
a form whose name is blank after trimming and whose orbital period parses
negative yields both the name error and the orbital-period error, two
distinct strings. -/
theorem C6_validatorCollects (fd : ExoplanetFormData) (hname : jsTrim fd.name = [])
    (q : ℚ) (hq : parseFloat fd.orbitalPeriod = .num q) (hneg : q < 0) :
    js "Name is required" ∈ validateFormData fd ∧
    js "Orbital Period must be greater than 0" ∈ validateFormData fd ∧
    js "Name is required" ≠ js "Orbital Period must be greater than 0" := by
  have hcheck := checkNumericField_negMin fd.orbitalPeriod (js "Orbital Period") q hq hneg
  have hmsg : js "Orbital Period" ++ js " must be greater than " ++ ratToString 0 =
      js "Orbital Period must be greater than 0" := by decide
  unfold validateFormData
  rw [hname]
  simp only [List.isEmpty_nil, ite_true_bool]
  refine ⟨List.mem_append.2 (Or.inl (by simp)), ?_, by decide⟩
  refine List.mem_append.2 (Or.inr ?_)
  refine List.mem_flatten.2
    ⟨checkNumericField fd.orbitalPeriod (js "Orbital Period") (some 0), ?_, ?_⟩
  · simp [numericFieldSpecs]
  · rw [hcheck, hmsg]
    simp

/-- Witness for C6: the concrete blank-name, negative-period form input. -/
theorem C6_witness :
    js "Name is required" ∈ validateFormData fdBad ∧
      js "Orbital Period must be greater than 0" ∈ validateFormData fdBad ∧
      js "Name is required" ≠ js "Orbital Period must be greater than 0" :=
  C6_validatorCollects fdBad (by decide) (-5) (by decide) (by decide)

/-- Claim C7: `stellarMagnitude` gets no minimum-value check — if it parses
to a finite number and every other field is valid the validator returns no
errors; a non-parseable magnitude still yields the
"must be a valid number" error. -/
theorem C7_magnitudeException :
    (∀ (fd : ExoplanetFormData) (q : ℚ), parseFloat fd.stellarMagnitude = .num q →
      (jsTrim fd.name).isEmpty = false →
      fieldOkB fd.orbitalPeriod = true → fieldOkB fd.transitDepth = true →
      fieldOkB fd.transitDuration = true → fieldOkB fd.signalToNoiseRatio = true →
      fieldOkB fd.stellarRadius = true → fieldOkB fd.stellarTemperature = true →
      validateFormData fd = []) ∧
    (∀ fd : ExoplanetFormData, (parseFloat fd.stellarMagnitude).isNaN = true →
      js "Stellar Magnitude must be a valid number" ∈ validateFormData fd) := by
  constructor
  · intro fd q hm hname h1 h2 h3 h4 h5 h6
    unfold validateFormData
    rw [hname, ite_false_bool, List.nil_append]
    simp only [numericFieldSpecs, List.map_cons, List.map_nil]
    rw [checkNumericField_ok _ _ h1, checkNumericField_ok _ _ h2,
      checkNumericField_ok _ _ h3, checkNumericField_ok _ _ h4,
      checkNumericField_ok _ _ h5, checkNumericField_ok _ _ h6,
      checkNumericField_noMin _ _ (by rw [hm]; rfl)]
    rfl
  · intro fd hnan
    have hmsg : js "Stellar Magnitude" ++ js " must be a valid number" =
        js "Stellar Magnitude must be a valid number" := by decide
    unfold validateFormData
    refine List.mem_append.2 (Or.inr ?_)
    refine List.mem_flatten.2
      ⟨checkNumericField fd.stellarMagnitude (js "Stellar Magnitude") none, ?_, ?_⟩
    · simp [numericFieldSpecs]
    · rw [checkNumericField_nan _ _ _ hnan, hmsg]
      simp

/-- Witness for C7: `fdGood` (magnitude `-1.5`) validates cleanly, and the
same form with magnitude `bright` gets the "must be a valid number" error. -/
theorem C7_witness :
    validateFormData fdGood = [] ∧
      js "Stellar Magnitude must be a valid number" ∈ validateFormData fdBadMag :=
  ⟨C7_magnitudeException.1 fdGood (-(mkRat 3 2)) (by decide) (by decide) (by decide)
      (by decide) (by decide) (by decide) (by decide) (by decide),
    C7_magnitudeException.2 fdBadMag (by decide)⟩

/-- Claim C8: quote safety of the codec — for a record whose name contains
a comma and a double quote, encoding the record's row and tokenizing it
returns the name unchanged (doubled quotes decode to one literal quote and
commas inside quoted fields are content). -/
theorem C8_quoteSafety (r : ExoplanetData) (h1 : ',' ∈ r.name) (h2 : '"' ∈ r.name) :
    (parseCSVLine (encodeRow (recordRow r false))).getD 0 [] = r.name := by
  rw [parseCSVLine_encodeRow _ (recordRow_ne_nil r false), recordRow_false]
  rfl

/-- Witness for C8: the spec's example name `Kepler, "442b"`. -/
theorem C8_witness :
    (parseCSVLine (encodeRow (recordRow recQuote false))).getD 0 [] =
      js "Kepler, \"442b\"" :=
  C8_quoteSafety recQuote (by decide) (by decide)

/-- Claim C9: for an imported row that succeeds, a blank or absent Date
Added token (token 9) makes `dateAdded` the import time, and a non-empty
token makes `dateAdded` the parse of that token. -/
theorem C9_dateAdded (now : Int) (fresh : Nat → JStr) (i : Nat) (line : JStr)
    (r : ExoplanetData) (h : importLine now fresh i line = .ok r) :
    ((parseCSVLine line).getD 8 [] = [] → r.dateAdded = some now) ∧
    ((parseCSVLine line).getD 8 [] ≠ [] →
      r.dateAdded = jsDateParse ((parseCSVLine line).getD 8 [])) := by
  have hd := importLine_dateAdded now fresh i line r h
  constructor
  · intro hb
    rw [hd, hb]
    rfl
  · intro hb
    rw [hd, isEmpty_false_of_ne_nil _ hb, ite_false_bool]

/-- Witness for C9: an 8-token row defaults `dateAdded` to the import time
42; a 9-token row parses its date token. -/
theorem C9_witness :
    importLine 42 f0 1 row8 = .ok w9rec8 ∧ w9rec8.dateAdded = some 42 ∧
      importLine 42 f0 1 row9 = .ok w9rec9 ∧
      w9rec9.dateAdded = jsDateParse ((parseCSVLine row9).getD 8 []) :=
  ⟨by decide, (C9_dateAdded 42 f0 1 row8 w9rec8 (by decide)).1 (by decide), by decide,
    (C9_dateAdded 42 f0 1 row9 w9rec9 (by decide)).2 (by decide)⟩

/-- Claim C10: totality and partition of the import — `importFromCSV` is a
total function (it cannot throw in the model), every data line contributes
exactly one entry, so the two output lists' lengths sum to the number of
data lines; a header-only file yields two empty lists. -/
theorem C10_totalPartition :
    (∀ (now : Int) (fresh : Nat → JStr) (csv : JStr),
      (importFromCSV now fresh csv).successful.length +
          (importFromCSV now fresh csv).failed.length =
        (splitNl (jsTrim csv)).length - 1) ∧
    importFromCSV 0 f0 headerOnly = { successful := [], failed := [] } := by
  constructor
  · intro now fresh csv
    rw [importFromCSV_eq]
    dsimp only
    rw [filterMap_partition, importLines_length, List.length_drop]
  · decide

example : js "ab" = ['a', 'b'] := by decide

example : parseFloat (js "-1.5") = .num (-(3 / 2 : ℚ)) := by decide

example : parseFloat (js "abc") = .nan := by decide

example : ratToString (-(3 / 2 : ℚ)) = js "-1.5" := by decide

example : parseCSVLine (js "\"a\",\"b\"\"c\"") = [js "a", js "b\"c"] := by decide

end

end Exopedia
